import Mathlib

/-!
Verification of `meyendtris/framework/basicstimuli.py` (class `BasicStimuli`).

Shallow embedding: each stimulus factory (`write`, `crosshair`, `rectangle`,
`frame`, `picture`, `sound`, `movie`) and the destruction helper
`_destroy_object` is translated into an executable Lean function over an
explicit state (`StimState`, the persistent instance fields the code touches)
producing a trace of observable engine effects (`Event`).  Engine objects are
opaque handles (`Obj`) carrying the attributes the code queries via `hasattr`
(`destroy`, `stop`) together with flags saying whether calling those methods
raises, so that the `try/except` structure of the Python code can be modelled
faithfully.  Python calls that can raise are modelled with an explicit
exceptional result (`Res` for the factories, `Attempt` for the body of the
`try` block inside `_destroy_object`); purely cosmetic parameter translation
(colors, font loading, screen geometry, the movie aspect/scale arithmetic)
is elided since no verified property mentions it.
-/

set_option maxHeartbeats 1000000

namespace Meyendtris

/-- An opaque engine-object handle (OnscreenText / OnscreenImage / sound /
texture).  `hasDestroy` / `hasStop` model `hasattr(ele, 'destroy')` /
`hasattr(ele, 'stop')`; `destroyRaises` / `stopRaises` say whether calling the
corresponding method raises an exception. -/
structure Obj where
  oid : Nat
  hasDestroy : Bool
  hasStop : Bool
  destroyRaises : Bool
  stopRaises : Bool
deriving DecidableEq, Repr

/-- The `obj` argument of `_destroy_object` (and the first entry of
`extraArgs` in a `taskMgr.doMethodLater` call): either a single object-or-None
or a list/tuple of objects-or-None. -/
inductive DArg where
  | single (o : Option Obj)
  | many (os : List (Option Obj))
deriving DecidableEq, Repr

/-- Lines 502-503 of `_destroy_object`: a tuple becomes a list, and a
non-list argument is wrapped into a one-element list. -/
def normalizeArg : DArg → List (Option Obj)
  | .single o => [o]
  | .many os => os

/-- Observable effects of a call, in order of occurrence. -/
inductive Event where
  | create (o : Obj)
  | marker (code : Int)
  | sleep (t : Rat)
  | waitfor (ev : String)
  | destroyCall (o : Obj)
  | stopCall (o : Obj)
  | schedule (delay : Rat) (arg : DArg) (id : Int)
  | warn
deriving DecidableEq, Repr

/-- The persistent instance fields of `BasicStimuli` that the stimulus
operations touch: `self._to_destroy`, `self.implicit_markers`, and
`self.audio3d` (modelled as a Bool: `false` means the field still holds
`None`). -/
structure StimState where
  to_destroy : List Obj
  implicit_markers : Bool
  audio3d : Bool
deriving DecidableEq, Repr

/-- External environment: whether `send_marker` (called by `self.marker`)
raises when invoked. -/
structure Env where
  markerRaises : Bool
deriving DecidableEq, Repr

/-- Python exceptions relevant to the model. -/
inductive PyError where
  | typeError
  | markerError
deriving DecidableEq, Repr

/-- Outcome of the body of the `try` block in `_destroy_object`: either
normal completion or a raised exception, in both cases with the events
emitted so far and the current value of `self._to_destroy`. -/
inductive Attempt where
  | ok (events : List Event) (td : List Obj)
  | raised (events : List Event) (td : List Obj)
deriving DecidableEq, Repr

def Attempt.events : Attempt → List Event
  | .ok evs _ => evs
  | .raised evs _ => evs

def Attempt.td : Attempt → List Obj
  | .ok _ td => td
  | .raised _ td => td

def Attempt.isRaised : Attempt → Bool
  | .ok _ _ => false
  | .raised _ _ => true

/-- The `for ele in obj:` loop of `_destroy_object` (lines 509-518).  Python's
for loop walks the list by index, so the `obj.remove(ele)` branch (taken when
`ele` has neither a `destroy` nor a `stop` attribute) shortens the list being
iterated and thereby skips the following element.  `cur` is the current value
of the local list `obj`, `i` the iteration index, `td` the current
`self._to_destroy`, `evs` the events emitted so far inside the `try` block. -/
def destroyLoop (cur : List (Option Obj)) (i : Nat) (td : List Obj)
    (evs : List Event) : Attempt :=
  if h : i < cur.length then
    match cur[i] with
    | none => destroyLoop cur (i + 1) td evs
    | some ele =>
      if ele.hasDestroy then
        if ele.destroyRaises then .raised evs td
        else
          let evs' := evs ++ [.destroyCall ele]
          if ele ∈ td then destroyLoop cur (i + 1) (td.erase ele) evs'
          else .raised evs' td
      else if ele.hasStop then
        if ele.stopRaises then .raised evs td
        else
          let evs' := evs ++ [.stopCall ele]
          if ele ∈ td then destroyLoop cur (i + 1) (td.erase ele) evs'
          else .raised evs' td
      else
        -- `obj.remove(ele)`: removes the first occurrence of `ele` from the
        -- local list (it is present, being `cur[i]`), then
        -- `self._to_destroy.remove(ele)`.
        if ele ∈ td then
          destroyLoop (cur.erase (some ele)) (i + 1) (td.erase ele) evs
        else .raised evs td
  else .ok evs td
termination_by cur.length - i
decreasing_by
  · omega
  · omega
  · omega
  · have h1 : (cur.erase (some ele)).length ≤ cur.length :=
      List.length_erase_le _ _
    omega

/-- The body of the `try` block in `_destroy_object` (lines 505-518): emit the
completion marker when `id > 0` and `implicit_markers`, then run the
destruction loop. -/
def destroyAttempt (env : Env) (s : StimState) (cur : List (Option Obj))
    (id : Int) : Attempt :=
  if 0 < id ∧ s.implicit_markers then
    if env.markerRaises then .raised [] s.to_destroy
    else destroyLoop cur 0 s.to_destroy [.marker id]
  else destroyLoop cur 0 s.to_destroy []

/-- `BasicStimuli._destroy_object` (lines 500-520).  The whole body after the
argument normalization sits inside `try: ... except: warnings.warn(...)`, so
the function always returns normally; a raised exception is reduced to a
single warning event. -/
def destroy_object (env : Env) (s : StimState) (arg : DArg) (id : Int) :
    List Event × StimState :=
  match destroyAttempt env s (normalizeArg arg) id with
  | .ok evs td => (evs, { s with to_destroy := td })
  | .raised evs td => (evs ++ [.warn], { s with to_destroy := td })

/-- The `duration` parameter of the visual stimulus factories: a number, an
event name (a string), or a `[number, string]` pair. -/
inductive Duration where
  | num (t : Rat)
  | event (s : String)
  | hybrid (t : Rat) (s : String)
deriving DecidableEq, Repr

/-- What a factory returns to its caller (Python `None`, a single engine
handle, a `destroy_helper` wrapping several handles, or the playable of
`movie`). -/
inductive Ret where
  | noneV
  | handle (o : Obj)
  | helper (os : List Obj)
deriving DecidableEq, Repr

/-- Result of a factory call: normal return or a propagated exception; both
carry the events emitted and the instance state at that point. -/
inductive Res where
  | ok (events : List Event) (s : StimState) (r : Ret)
  | exn (events : List Event) (s : StimState) (e : PyError)
deriving DecidableEq, Repr

def Res.events : Res → List Event
  | .ok evs _ _ => evs
  | .exn evs _ _ => evs

def Res.state : Res → StimState
  | .ok _ s _ => s
  | .exn _ s _ => s

/-- The `if block:` branch shared verbatim by the visual factories
(e.g. `write` lines 85-92): a `[number, string]` duration sleeps and then
waits for the event, a string duration waits for the event, a numeric
duration sleeps. -/
def waitEvents : Duration → List Event
  | .num t => [.sleep t]
  | .event e => [.waitfor e]
  | .hybrid t e => [.sleep t, .waitfor e]

/-- The tail of each visual factory (e.g. `write` lines 85-98): in blocking
mode perform the wait dictated by `duration` and then call `_destroy_object`
on `arg` with the completion code; otherwise evaluate `duration > 0` (a
`TypeError` in Python 3 when `duration` is a string or a list) and, when
positive, schedule `_destroy_object` via `taskMgr.doMethodLater`, returning
`nbRet` to the caller. -/
def blockTail (env : Env) (s : StimState) (evs : List Event) (arg : DArg)
    (complete : Int) (d : Duration) (block : Bool) (nbRet : Ret) : Res :=
  if block then
    let p := destroy_object env s arg complete
    .ok (evs ++ waitEvents d ++ p.1) p.2 .noneV
  else
    match d with
    | .num t =>
      if 0 < t then .ok (evs ++ [.schedule t arg complete]) s nbRet
      else .ok evs s nbRet
    | .event _ => .exn evs s .typeError
    | .hybrid _ _ => .exn evs s .typeError

/-- `self.marker(code)` guarded by `if self.implicit_markers:` as it appears
at the head of every factory's lifecycle tail; raises when the external
marker transport raises. -/
def emitOnset (env : Env) (s : StimState) (evs : List Event) (code : Int)
    (k : List Event → Res) : Res :=
  if s.implicit_markers then
    if env.markerRaises then .exn evs s .markerError
    else k (evs ++ [.marker code])
  else k evs

/-- `BasicStimuli.write` (lines 45-98).  `obj` stands for the freshly created
`OnscreenText`; the text/position/color parameters only feed that constructor
and are elided.  Lines 76-77 force `block = False` when `duration == 0`. -/
def write (env : Env) (s : StimState) (obj : Obj) (d : Duration)
    (block : Bool) : Res :=
  let block := if d = .num 0 then false else block
  let s := { s with to_destroy := s.to_destroy ++ [obj] }
  emitOnset env s [.create obj] 254 fun evs =>
    blockTail env s evs (.single (some obj)) 255 d block (.handle obj)

/-- `BasicStimuli.crosshair` (lines 100-135).  Two `OnscreenImage` objects
are created; there is no `duration == 0` override in this factory.  The
non-blocking path returns a `destroy_helper` over both objects. -/
def crosshair (env : Env) (s : StimState) (obj1 obj2 : Obj) (d : Duration)
    (block : Bool) : Res :=
  let s := { s with to_destroy := s.to_destroy ++ [obj1] }
  let s := { s with to_destroy := s.to_destroy ++ [obj2] }
  emitOnset env s [.create obj1, .create obj2] 252 fun evs =>
    blockTail env s evs (.many [some obj1, some obj2]) 253 d block
      (.helper [obj1, obj2])

/-- `BasicStimuli.rectangle` (lines 137-172).  Lines 151-152 force
`block = False` when `duration == 0`. -/
def rectangle (env : Env) (s : StimState) (obj : Obj) (d : Duration)
    (block : Bool) : Res :=
  let block := if d = .num 0 then false else block
  let s := { s with to_destroy := s.to_destroy ++ [obj] }
  emitOnset env s [.create obj] 250 fun evs =>
    blockTail env s evs (.single (some obj)) 251 d block (.handle obj)

/-- `BasicStimuli.frame` (lines 174-217).  Four `OnscreenImage` objects
(left, right, top, bottom); no `duration == 0` override in this factory. -/
def frame (env : Env) (s : StimState) (objL objR objT objB : Obj)
    (d : Duration) (block : Bool) : Res :=
  let s := { s with to_destroy := s.to_destroy ++ [objL] }
  let s := { s with to_destroy := s.to_destroy ++ [objR] }
  let s := { s with to_destroy := s.to_destroy ++ [objT] }
  let s := { s with to_destroy := s.to_destroy ++ [objB] }
  emitOnset env s [.create objL, .create objR, .create objT, .create objB]
      242 fun evs =>
    blockTail env s evs (.many [some objL, some objR, some objT, some objB])
      243 d block (.helper [objL, objR, objT, objB])

/-- A Python value as passed for `pos`, `hpr`, `scale` of `picture`:
`None`, a scalar `int`/`float`, a tuple/list of numbers, or the nested tuple
`(0, 0, v)` produced by the hpr normalization at line 240. -/
inductive PyVal where
  | noneV
  | num (x : Rat)
  | tup (xs : List Rat)
  | nest (v : PyVal)
deriving DecidableEq, Repr

/-- `type(v) in (int, float)`. -/
def PyVal.isNum : PyVal → Bool
  | .num _ => true
  | _ => false

/-- `len(v)` — raises `TypeError` on a scalar `int`/`float` (and on `None`,
though the guards never reach that case). -/
def pyLen : PyVal → Except PyError Nat
  | .noneV => .error .typeError
  | .num _ => .error .typeError
  | .tup xs => .ok xs.length
  | .nest _ => .ok 3

/-- The pos/scale normalization guard of `picture` (lines 235-238):
`if v is not None and type(v) not in (int,float) and len(v) == 2:` the
two-element sequence gets `mid` (0 for pos, 1 for scale) inserted in the
middle. -/
def norm2 (mid : Rat) (v : PyVal) : Except PyError PyVal :=
  if v ≠ .noneV ∧ v.isNum = false then do
    let n ← pyLen v
    pure (if n = 2 then
      match v with
      | .tup xs => PyVal.tup [xs[0]!, mid, xs[1]!]
      | p => p
    else v)
  else pure v

/-- The hpr normalization guard of `picture` (lines 239-240):
`if hpr is not None and type(scale) not in (int,float) and len(hpr) == 1:`
— note that the type test is on `scale`, not on `hpr`, and that `len(hpr)`
is evaluated next. -/
def normHpr (scale hpr : PyVal) : Except PyError PyVal :=
  if hpr ≠ .noneV ∧ scale.isNum = false then do
    let n ← pyLen hpr
    pure (if n = 1 then PyVal.nest hpr else hpr)
  else pure hpr

/-- `BasicStimuli.picture` (lines 219-261).  The three normalization guards
are lines 235-240 and run before the `OnscreenImage` is created. -/
def picture (env : Env) (s : StimState) (obj : Obj)
    (pos hpr scale : PyVal) (d : Duration) (block : Bool) : Res :=
  match norm2 0 pos with
  | .error e => .exn [] s e
  | .ok _ =>
    match norm2 1 scale with
    | .error e => .exn [] s e
    | .ok scale =>
      match normHpr scale hpr with
      | .error e => .exn [] s e
      | .ok _ =>
        -- lines 241-242
        let block := if d = .num 0 then false else block
        let s := { s with to_destroy := s.to_destroy ++ [obj] }
        emitOnset env s [.create obj] 248 fun evs =>
          blockTail env s evs (.single (some obj)) 249 d block (.handle obj)

/-- The length arithmetic of `BasicStimuli.sound` (lines 287-298):
`length = obj.length()`, scaled by `loopcount`, overridden to `100000` when
looping, reduced by a positive `timeoffset`, and finally multiplied by
`playrate` (the code multiplies, line 298). -/
def soundLength (len0 : Rat) (loopcount : Option Rat) (looping : Bool)
    (timeoffset playrate : Rat) : Rat :=
  let l := match loopcount with
    | some n => len0 * n
    | none => len0
  let l := if looping then 100000 else l
  let l := if 0 < timeoffset then l - timeoffset else l
  l * playrate

/-- `BasicStimuli.sound` (lines 263-307).  `obj` stands for the loaded sound
handle, `len0` for `obj.length()`.  With `surround=True` the factory lazily
initializes `self.audio3d` (lines 276-278).  In the non-blocking branch the
scheduled `_destroy_object` call receives `extraArgs=[None, 247]` — `None`,
not the created handle (line 306). -/
def sound (env : Env) (s : StimState) (obj : Obj) (len0 : Rat)
    (block : Bool) (loopcount : Option Rat) (looping : Bool)
    (timeoffset playrate : Rat) (surround : Bool) : Res :=
  let s := if surround then { s with audio3d := true } else s
  let s := { s with to_destroy := s.to_destroy ++ [obj] }
  let length := soundLength len0 loopcount looping timeoffset playrate
  emitOnset env s [.create obj] 246 fun evs =>
    if block then
      let p := destroy_object env s (.single (some obj)) 247
      .ok (evs ++ [.sleep length] ++ p.1) p.2 .noneV
    else
      .ok (evs ++ [.schedule length (.single none) 247]) s (.handle obj)

/-- The length arithmetic of `BasicStimuli.movie` (lines 360-377):
divided by `playrate` when `playrate != 1`, scaled by `loopcount`,
overridden to `10000000` when looping, reduced by a positive
`timeoffset`. -/
def movieLength (len0 : Rat) (playrate : Rat) (loopcount : Option Rat)
    (looping : Bool) (timeoffset : Rat) : Rat :=
  let l := if playrate ≠ 1 then len0 / playrate else len0
  let l := match loopcount with
    | some n => l * n
    | none => l
  let l := if looping then 10000000 else l
  if 0 < timeoffset then l - timeoffset else l

/-- `BasicStimuli.movie` (lines 309-423).  `sndOpt` is the optional sound
track (`None` when loading fails or the track has zero length), `tex` the
video texture, `img` the `OnscreenImage`; `len0` is the raw length read from
the sound track or texture.  The aspect/scale arithmetic (lines 379-399)
only feeds the `OnscreenImage` constructor and is elided.  In blocking mode
only `img` is passed to `_destroy_object` (line 420), while the non-blocking
branch schedules destruction of `[img, tex, snd]` (line 422). -/
def movie (env : Env) (s : StimState) (sndOpt : Option Obj) (tex img : Obj)
    (len0 : Rat) (playrate : Rat) (loopcount : Option Rat) (looping : Bool)
    (timeoffset : Rat) (block : Bool) : Res :=
  let s := match sndOpt with
    | some snd => { s with to_destroy := s.to_destroy ++ [snd] }
    | none => s
  let s := { s with to_destroy := s.to_destroy ++ [tex] }
  let length := movieLength len0 playrate loopcount looping timeoffset
  let s := { s with to_destroy := s.to_destroy ++ [img] }
  let playable := match sndOpt with
    | some snd => snd
    | none => tex
  emitOnset env s
      ((sndOpt.toList.map Event.create) ++ [.create tex, .create img])
      244 fun evs =>
    if block then
      let p := destroy_object env s (.single (some img)) 245
      .ok (evs ++ [.sleep length] ++ p.1) p.2 .noneV
    else
      .ok (evs ++ [.schedule length (.many [some img, some tex, sndOpt]) 245])
        s (.handle playable)

/-! ## Helper lemmas about the destruction loop -/

/-- Every event the destruction loop appends to its accumulator is a
`destroyCall` or a `stopCall`, and the final tracking list only contains
elements of the initial one. -/
theorem destroyLoop_spec (cur : List (Option Obj)) (i : Nat)
    (td : List Obj) (evs : List Event) :
    ∃ rest, (destroyLoop cur i td evs).events = evs ++ rest ∧
      (∀ e ∈ rest, (∃ o, e = Event.destroyCall o) ∨ (∃ o, e = Event.stopCall o)) ∧
      (∀ x ∈ (destroyLoop cur i td evs).td, x ∈ td) := by
  induction cur, i, td, evs using destroyLoop.induct with
  | case1 cur i td evs h hc ih =>
    rw [destroyLoop]; simp only [h, ↓reduceDIte, hc]
    exact ih
  | case2 cur i td evs h ele hc hd hr =>
    rw [destroyLoop]; simp only [h, ↓reduceDIte, hc]
    rw [if_pos hd, if_pos hr]
    exact ⟨[], by simp [Attempt.events], by simp, by simp [Attempt.td]⟩
  | case3 cur i td evs h ele hc hd hr e' hm ih =>
    rw [destroyLoop]; simp only [h, ↓reduceDIte, hc]
    rw [if_pos hd, if_neg hr, if_pos hm]
    obtain ⟨rest, he, hall, hsub⟩ := ih
    have he' : (destroyLoop cur (i + 1) (td.erase ele)
        (evs ++ [Event.destroyCall ele])).events
        = (evs ++ [Event.destroyCall ele]) ++ rest := he
    have hsub' : ∀ x ∈ (destroyLoop cur (i + 1) (td.erase ele)
        (evs ++ [Event.destroyCall ele])).td, x ∈ td.erase ele := hsub
    refine ⟨Event.destroyCall ele :: rest, ?_, ?_, ?_⟩
    · rw [he']; simp
    · intro e hme
      simp only [List.mem_cons] at hme
      rcases hme with rfl | hme
      · exact Or.inl ⟨ele, rfl⟩
      · exact hall e hme
    · intro x hx
      exact List.erase_subset _ _ (hsub' x hx)
  | case4 cur i td evs h ele hc hd hr hm =>
    rw [destroyLoop]; simp only [h, ↓reduceDIte, hc]
    rw [if_pos hd, if_neg hr, if_neg hm]
    refine ⟨[Event.destroyCall ele], by simp [Attempt.events], ?_,
      by simp [Attempt.td]⟩
    intro e hme
    simp only [List.mem_singleton] at hme
    exact Or.inl ⟨ele, hme⟩
  | case5 cur i td evs h ele hc hd hs hr =>
    rw [destroyLoop]; simp only [h, ↓reduceDIte, hc]
    rw [if_neg (by simp [hd]), if_pos hs, if_pos hr]
    exact ⟨[], by simp [Attempt.events], by simp, by simp [Attempt.td]⟩
  | case6 cur i td evs h ele hc hd hs hr e' hm ih =>
    rw [destroyLoop]; simp only [h, ↓reduceDIte, hc]
    rw [if_neg (by simp [hd]), if_pos hs, if_neg hr, if_pos hm]
    obtain ⟨rest, he, hall, hsub⟩ := ih
    have he' : (destroyLoop cur (i + 1) (td.erase ele)
        (evs ++ [Event.stopCall ele])).events
        = (evs ++ [Event.stopCall ele]) ++ rest := he
    have hsub' : ∀ x ∈ (destroyLoop cur (i + 1) (td.erase ele)
        (evs ++ [Event.stopCall ele])).td, x ∈ td.erase ele := hsub
    refine ⟨Event.stopCall ele :: rest, ?_, ?_, ?_⟩
    · rw [he']; simp
    · intro e hme
      simp only [List.mem_cons] at hme
      rcases hme with rfl | hme
      · exact Or.inr ⟨ele, rfl⟩
      · exact hall e hme
    · intro x hx
      exact List.erase_subset _ _ (hsub' x hx)
  | case7 cur i td evs h ele hc hd hs hr hm =>
    rw [destroyLoop]; simp only [h, ↓reduceDIte, hc]
    rw [if_neg (by simp [hd]), if_pos hs, if_neg hr, if_neg hm]
    refine ⟨[Event.stopCall ele], by simp [Attempt.events], ?_,
      by simp [Attempt.td]⟩
    intro e hme
    simp only [List.mem_singleton] at hme
    exact Or.inr ⟨ele, hme⟩
  | case8 cur i td evs h ele hc hd hs hm ih =>
    rw [destroyLoop]; simp only [h, ↓reduceDIte, hc]
    rw [if_neg (by simp [hd]), if_neg (by simp [hs]), if_pos hm]
    obtain ⟨rest, he, hall, hsub⟩ := ih
    exact ⟨rest, he, hall, fun x hx => List.erase_subset _ _ (hsub x hx)⟩
  | case9 cur i td evs h ele hc hd hs hm =>
    rw [destroyLoop]; simp only [h, ↓reduceDIte, hc]
    rw [if_neg (by simp [hd]), if_neg (by simp [hs]), if_neg hm]
    exact ⟨[], by simp [Attempt.events], by simp, by simp [Attempt.td]⟩
  | case10 cur i td evs h =>
    rw [destroyLoop]; simp only [h, ↓reduceDIte]
    exact ⟨[], by simp [Attempt.events], by simp, by simp [Attempt.td]⟩

/-- Structural reformulation of the destruction loop, valid when no element
triggers the in-place `obj.remove(ele)` branch (i.e. when every non-None
element has a `destroy` or a `stop` attribute), so that the iterated list
never changes and the loop visits every element in order. -/
def processDS : List (Option Obj) → List Obj → List Event → Attempt
  | [], td, evs => .ok evs td
  | none :: rest, td, evs => processDS rest td evs
  | some o :: rest, td, evs =>
    if o.hasDestroy then
      if o.destroyRaises then .raised evs td
      else
        if o ∈ td then processDS rest (td.erase o) (evs ++ [.destroyCall o])
        else .raised (evs ++ [.destroyCall o]) td
    else if o.hasStop then
      if o.stopRaises then .raised evs td
      else
        if o ∈ td then processDS rest (td.erase o) (evs ++ [.stopCall o])
        else .raised (evs ++ [.stopCall o]) td
    else .raised evs td

/-- When every non-None element of the iterated list has a `destroy` or a
`stop` attribute, the index-based loop agrees with the structural
reformulation on the remaining suffix. -/
theorem destroyLoop_eq_processDS (cur : List (Option Obj)) (i : Nat)
    (td : List Obj) (evs : List Event)
    (hh : ∀ o : Obj, some o ∈ cur → o.hasDestroy = true ∨ o.hasStop = true) :
    destroyLoop cur i td evs = processDS (cur.drop i) td evs := by
  induction cur, i, td, evs using destroyLoop.induct with
  | case1 cur i td evs h hc ih =>
    rw [destroyLoop]; simp only [h, ↓reduceDIte, hc]
    rw [List.drop_eq_getElem_cons h, hc, processDS]
    exact ih hh
  | case2 cur i td evs h ele hc hd hr =>
    rw [destroyLoop]; simp only [h, ↓reduceDIte, hc]
    rw [if_pos hd, if_pos hr, List.drop_eq_getElem_cons h, hc, processDS]
    rw [if_pos hd, if_pos hr]
  | case3 cur i td evs h ele hc hd hr e' hm ih =>
    rw [destroyLoop]; simp only [h, ↓reduceDIte, hc]
    rw [if_pos hd, if_neg hr, if_pos hm, List.drop_eq_getElem_cons h, hc,
      processDS, if_pos hd, if_neg hr, if_pos hm]
    exact ih hh
  | case4 cur i td evs h ele hc hd hr hm =>
    rw [destroyLoop]; simp only [h, ↓reduceDIte, hc]
    rw [if_pos hd, if_neg hr, if_neg hm, List.drop_eq_getElem_cons h, hc,
      processDS, if_pos hd, if_neg hr, if_neg hm]
  | case5 cur i td evs h ele hc hd hs hr =>
    rw [destroyLoop]; simp only [h, ↓reduceDIte, hc]
    rw [if_neg (by simp [hd]), if_pos hs, if_pos hr,
      List.drop_eq_getElem_cons h, hc, processDS,
      if_neg (by simp [hd]), if_pos hs, if_pos hr]
  | case6 cur i td evs h ele hc hd hs hr e' hm ih =>
    rw [destroyLoop]; simp only [h, ↓reduceDIte, hc]
    rw [if_neg (by simp [hd]), if_pos hs, if_neg hr, if_pos hm,
      List.drop_eq_getElem_cons h, hc, processDS,
      if_neg (by simp [hd]), if_pos hs, if_neg hr, if_pos hm]
    exact ih hh
  | case7 cur i td evs h ele hc hd hs hr hm =>
    rw [destroyLoop]; simp only [h, ↓reduceDIte, hc]
    rw [if_neg (by simp [hd]), if_pos hs, if_neg hr, if_neg hm,
      List.drop_eq_getElem_cons h, hc, processDS,
      if_neg (by simp [hd]), if_pos hs, if_neg hr, if_neg hm]
  | case8 cur i td evs h ele hc hd hs hm ih =>
    exfalso
    have : some ele ∈ cur := by rw [← hc]; exact List.getElem_mem h
    rcases hh ele this with h1 | h1
    · exact hd h1
    · exact hs h1
  | case9 cur i td evs h ele hc hd hs hm =>
    exfalso
    have : some ele ∈ cur := by rw [← hc]; exact List.getElem_mem h
    rcases hh ele this with h1 | h1
    · exact hd h1
    · exact hs h1
  | case10 cur i td evs h =>
    rw [destroyLoop]; simp only [h, ↓reduceDIte]
    rw [List.drop_eq_nil_of_le (by omega), processDS]

/-- The structural loop only ever removes elements from the tracking list. -/
theorem processDS_subset (os : List (Option Obj)) (td : List Obj)
    (evs : List Event) :
    ∀ x ∈ (processDS os td evs).td, x ∈ td := by
  induction os generalizing td evs with
  | nil => simp [processDS, Attempt.td]
  | cons hd tl ih =>
    cases hd with
    | none => exact fun x hx => ih td evs x hx
    | some o =>
      intro x hx
      rw [processDS] at hx
      by_cases h1 : o.hasDestroy = true
      · rw [if_pos h1] at hx
        by_cases h2 : o.destroyRaises = true
        · rw [if_pos h2] at hx; exact hx
        · rw [if_neg h2] at hx
          by_cases h3 : o ∈ td
          · rw [if_pos h3] at hx
            exact List.erase_subset _ _ (ih _ _ x hx)
          · rw [if_neg h3] at hx; exact hx
      · rw [if_neg h1] at hx
        by_cases h4 : o.hasStop = true
        · rw [if_pos h4] at hx
          by_cases h2 : o.stopRaises = true
          · rw [if_pos h2] at hx; exact hx
          · rw [if_neg h2] at hx
            by_cases h3 : o ∈ td
            · rw [if_pos h3] at hx
              exact List.erase_subset _ _ (ih _ _ x hx)
            · rw [if_neg h3] at hx; exact hx
        · rw [if_neg h4] at hx; exact hx

/-- On a duplicate-free tracking list, a successful run of the structural
loop removes every non-None element it was given. -/
theorem processDS_ok_removes (os : List (Option Obj)) (td : List Obj)
    (evs : List Event) (hnd : td.Nodup) :
    ∀ evs' td', processDS os td evs = .ok evs' td' →
      ∀ o : Obj, some o ∈ os → o ∉ td' := by
  induction os generalizing td evs with
  | nil => simp
  | cons hd tl ih =>
    intro evs' td' heq o hmo
    cases hd with
    | none =>
      rw [processDS] at heq
      simp only [List.mem_cons] at hmo
      rcases hmo with h | h
      · exact absurd h (by simp)
      · exact ih td evs hnd evs' td' heq o h
    | some a =>
      rw [processDS] at heq
      by_cases h1 : a.hasDestroy = true
      · rw [if_pos h1] at heq
        by_cases h2 : a.destroyRaises = true
        · rw [if_pos h2] at heq; exact absurd heq (by simp)
        · rw [if_neg h2] at heq
          by_cases h3 : a ∈ td
          · rw [if_pos h3] at heq
            simp only [List.mem_cons] at hmo
            rcases hmo with h | h
            · have ho : o = a := by simpa using h
              intro hcon
              have hm2 := processDS_subset tl (td.erase a) _ o
                (by rw [heq]; exact hcon)
              rw [hnd.mem_erase_iff] at hm2
              exact hm2.1 ho
            · exact ih (td.erase a) _ (hnd.erase a) evs' td' heq o h
          · rw [if_neg h3] at heq; exact absurd heq (by simp)
      · rw [if_neg h1] at heq
        by_cases h4 : a.hasStop = true
        · rw [if_pos h4] at heq
          by_cases h2 : a.stopRaises = true
          · rw [if_pos h2] at heq; exact absurd heq (by simp)
          · rw [if_neg h2] at heq
            by_cases h3 : a ∈ td
            · rw [if_pos h3] at heq
              simp only [List.mem_cons] at hmo
              rcases hmo with h | h
              · have ho : o = a := by simpa using h
                intro hcon
                have hm2 := processDS_subset tl (td.erase a) _ o
                  (by rw [heq]; exact hcon)
                rw [hnd.mem_erase_iff] at hm2
                exact hm2.1 ho
              · exact ih (td.erase a) _ (hnd.erase a) evs' td' heq o h
            · rw [if_neg h3] at heq; exact absurd heq (by simp)
        · rw [if_neg h4] at heq; exact absurd heq (by simp)

/-- When the elements are a prefix `as` of well-behaved destroyable objects
followed by an element `bad` whose destruction or removal raises, the
structural loop destroys and removes exactly the prefix and then raises,
leaving every later element untouched in the tracking list. -/
theorem processDS_prefix_raise (as : List Obj) (bad : Obj) (bs : List Obj)
    (td : List Obj) (evs : List Event)
    (hA : ∀ a ∈ as, a.hasDestroy = true ∧ a.destroyRaises = false)
    (hbadD : bad.hasDestroy = true)
    (hndas : as.Nodup)
    (hsub : ∀ a ∈ as, a ∈ td)
    (htd : td.Nodup)
    (hbad : bad.destroyRaises = true ∨ bad ∉ td) :
    ∃ tdF,
      processDS ((as ++ bad :: bs).map some) td evs =
        .raised (evs ++ as.map Event.destroyCall ++
          (if bad.destroyRaises then [] else [Event.destroyCall bad])) tdF
      ∧ (∀ a ∈ as, a ∉ tdF)
      ∧ (∀ x ∈ tdF, x ∈ td)
      ∧ (∀ x ∈ td, x ∉ as → x ∈ tdF) := by
  induction as generalizing td evs with
  | nil =>
    simp only [List.nil_append, List.map_cons, List.map_nil]
    rw [processDS, if_pos hbadD]
    by_cases hr : bad.destroyRaises = true
    · rw [if_pos hr, hr]
      exact ⟨td, by simp, by simp, fun x hx => hx, fun x hx _ => hx⟩
    · have hb : bad ∉ td := by
        rcases hbad with h | h
        · exact absurd h hr
        · exact h
      rw [if_neg hr, if_neg hb]
      refine ⟨td, ?_, by simp, fun x hx => hx, fun x hx _ => hx⟩
      rw [if_neg hr]
      simp
  | cons a as ih =>
    obtain ⟨haD, haR⟩ := hA a (List.mem_cons_self a as)
    have haR' : ¬a.destroyRaises = true := by simp [haR]
    have hamem : a ∈ td := hsub a (List.mem_cons_self a as)
    have hanotin : a ∉ as := (List.nodup_cons.mp hndas).1
    rw [List.cons_append, List.map_cons, processDS, if_pos haD, if_neg haR',
      if_pos hamem]
    obtain ⟨tdF, heq, h1, h2, h3⟩ := ih (td.erase a)
      (evs ++ [Event.destroyCall a])
      (fun x hx => hA x (List.mem_cons_of_mem a hx))
      ((List.nodup_cons.mp hndas).2)
      (fun x hx => by
        rw [List.mem_erase_of_ne (fun hxa => hanotin (by rwa [hxa] at hx))]
        exact hsub x (List.mem_cons_of_mem a hx))
      (htd.erase a)
      (by
        rcases hbad with h | h
        · exact Or.inl h
        · exact Or.inr fun hc => h (List.erase_subset _ _ hc))
    refine ⟨tdF, ?_, ?_, ?_, ?_⟩
    · rw [heq]
      congr 1
      simp
    · intro x hx
      simp only [List.mem_cons] at hx
      rcases hx with rfl | hx
      · intro hc
        have := h2 x hc
        rw [htd.mem_erase_iff] at this
        exact this.1 rfl
      · exact h1 x hx
    · exact fun x hx => List.erase_subset _ _ (h2 x hx)
    · intro x hx hnx
      simp only [List.mem_cons, not_or] at hnx
      exact h3 x (by rw [List.mem_erase_of_ne hnx.1]; exact hx) hnx.2

/-- Boolean test: is this event a marker emission? -/
def Event.isMarkerEv : Event → Bool
  | .marker _ => true
  | _ => false

/-- Does the event list contain any marker emission? -/
def hasMarkerB (evs : List Event) : Bool := evs.any Event.isMarkerEv

theorem hasMarkerB_append (a b : List Event) :
    hasMarkerB (a ++ b) = (hasMarkerB a || hasMarkerB b) :=
  List.any_append

/-- The destruction-loop suffix contains neither markers nor warnings. -/
theorem destroyLoop_suffix_clean (cur : List (Option Obj)) (i : Nat)
    (td : List Obj) (evs : List Event) :
    ∃ rest, (destroyLoop cur i td evs).events = evs ++ rest ∧
      hasMarkerB rest = false ∧ Event.warn ∉ rest := by
  obtain ⟨rest, he, hall, -⟩ := destroyLoop_spec cur i td evs
  refine ⟨rest, he, ?_, ?_⟩
  · rw [hasMarkerB, List.any_eq_false]
    intro e hme
    rcases hall e hme with ⟨o, rfl⟩ | ⟨o, rfl⟩ <;> simp [Event.isMarkerEv]
  · intro hw
    rcases hall _ hw with ⟨o, ho⟩ | ⟨o, ho⟩ <;> simp at ho

/-- With `implicit_markers` off, `_destroy_object` emits no marker. -/
theorem destroy_object_no_marker (env : Env) (s : StimState) (arg : DArg)
    (id : Int) (h : s.implicit_markers = false) :
    hasMarkerB (destroy_object env s arg id).1 = false := by
  rw [destroy_object, destroyAttempt, if_neg (by simp [h])]
  obtain ⟨rest, he, hm, -⟩ := destroyLoop_suffix_clean (normalizeArg arg) 0
    s.to_destroy []
  cases hd : destroyLoop (normalizeArg arg) 0 s.to_destroy [] with
  | ok evs td =>
    rw [hd] at he
    simp only [Attempt.events, List.nil_append] at he
    subst he
    exact hm
  | raised evs td =>
    rw [hd] at he
    simp only [Attempt.events, List.nil_append] at he
    subst he
    rw [hasMarkerB_append, hm]
    rfl

/-- With `implicit_markers` on, a working marker transport and a positive id,
`_destroy_object` emits the completion marker first. -/
theorem destroy_object_marker_head (env : Env) (s : StimState) (arg : DArg)
    (id : Int) (h : s.implicit_markers = true) (hmr : env.markerRaises = false)
    (hid : 0 < id) :
    ∃ rest, (destroy_object env s arg id).1 = Event.marker id :: rest := by
  rw [destroy_object, destroyAttempt, if_pos ⟨hid, h⟩, hmr]
  simp only [Bool.false_eq_true, ↓reduceIte]
  obtain ⟨rest, he, -, -⟩ := destroyLoop_suffix_clean (normalizeArg arg) 0
    s.to_destroy [Event.marker id]
  cases hd : destroyLoop (normalizeArg arg) 0 s.to_destroy [Event.marker id] with
  | ok evs td =>
    rw [hd] at he
    simp only [Attempt.events] at he
    subst he
    exact ⟨rest, rfl⟩
  | raised evs td =>
    rw [hd] at he
    simp only [Attempt.events] at he
    subst he
    exact ⟨rest ++ [Event.warn], by simp⟩

/-- `_destroy_object` never raises: the wrapper always returns a pair, and
the trace contains exactly one warning when (and only when) the body of the
`try` block raised. -/
theorem destroy_object_warn_count (env : Env) (s : StimState) (arg : DArg)
    (id : Int) :
    (destroy_object env s arg id).1.count Event.warn =
      (if (destroyAttempt env s (normalizeArg arg) id).isRaised then 1 else 0) := by
  have hclean : Event.warn ∉ (destroyAttempt env s (normalizeArg arg) id).events := by
    rw [destroyAttempt]
    by_cases hg : 0 < id ∧ s.implicit_markers
    · rw [if_pos hg]
      cases hmr : env.markerRaises
      · simp only [Bool.false_eq_true, ↓reduceIte]
        obtain ⟨rest, he, -, hw⟩ := destroyLoop_suffix_clean
          (normalizeArg arg) 0 s.to_destroy [Event.marker id]
        rw [show (destroyLoop (normalizeArg arg) 0 s.to_destroy
            [Event.marker id]).events = [Event.marker id] ++ rest from he]
        simp only [List.mem_append, List.mem_singleton]
        rintro (h | h)
        · exact absurd h (by simp)
        · exact hw h
      · simp [Attempt.events]
    · rw [if_neg hg]
      obtain ⟨rest, he, -, hw⟩ := destroyLoop_suffix_clean
        (normalizeArg arg) 0 s.to_destroy []
      rw [show (destroyLoop (normalizeArg arg) 0 s.to_destroy []).events
          = [] ++ rest from he]
      simpa using hw
  rw [destroy_object]
  cases hd : destroyAttempt env s (normalizeArg arg) id with
  | ok evs td =>
    rw [hd] at hclean
    simp only [Attempt.isRaised, Bool.false_eq_true, ↓reduceIte]
    exact List.count_eq_zero.mpr hclean
  | raised evs td =>
    rw [hd] at hclean
    simp only [Attempt.events] at hclean
    simp only [Attempt.isRaised, ↓reduceIte, List.count_append]
    rw [List.count_eq_zero.mpr hclean]
    rfl

/-- `_destroy_object` only writes the `_to_destroy` field of the instance. -/
theorem destroy_object_fields (env : Env) (s : StimState) (arg : DArg)
    (id : Int) :
    (destroy_object env s arg id).2.implicit_markers = s.implicit_markers ∧
    (destroy_object env s arg id).2.audio3d = s.audio3d := by
  rw [destroy_object]
  cases destroyAttempt env s (normalizeArg arg) id <;> exact ⟨rfl, rfl⟩


/-- A well-behaved handle with a working `destroy` method. -/
def objD (n : Nat) : Obj := ⟨n, true, false, false, false⟩

/-- A handle with neither a `destroy` nor a `stop` attribute. -/
def objPlain (n : Nat) : Obj := ⟨n, false, false, false, false⟩

/-- A handle whose `destroy` method raises. -/
def objBad (n : Nat) : Obj := ⟨n, true, false, true, false⟩

/-- An environment whose marker transport works. -/
def env0 : Env := ⟨false⟩

/-- C1, counterexample.  The claim states that the completion code is one
less than the onset code; on a blocking `write` with implicit markers the
onset marker is 254 and the destruction emits 255 — one more, not one less
(the code 253 = 254 - 1 never appears in the trace). -/
theorem C1_counterexample :
    (write env0 ⟨[], true, false⟩ (objD 0) (.num 1) true).events =
      [.create (objD 0), .marker 254, .sleep 1, .marker 255,
       .destroyCall (objD 0)] ∧
    Event.marker (254 - 1) ∉
      (write env0 ⟨[], true, false⟩ (objD 0) (.num 1) true).events ∧
    (255 : Int) ≠ 254 - 1 := by
  refine ⟨?_, ?_, by decide⟩ <;>
    simp [write, emitOnset, blockTail, destroy_object, destroyAttempt,
      destroyLoop, normalizeArg, env0, objD, waitEvents, Attempt.events,
      Res.events]

/-- C2, failing evaluations.  A non-blocking `sound` schedules the
destruction helper with `None` instead of the created handle, which stays in
`_to_destroy`; a blocking `movie` destroys only the image, leaving the sound
track and the texture in `_to_destroy`. -/
theorem C2_code_bug_eval :
    (sound env0 ⟨[], false, false⟩ (objD 1) 3 false none false 0 1 false) =
      .ok [.create (objD 1), .schedule 3 (.single none) 247]
        ⟨[objD 1], false, false⟩ (.handle (objD 1)) ∧
    (movie env0 ⟨[], false, false⟩ (some (objD 1)) (objD 2) (objD 3)
        5 1 none false 0 true) =
      .ok [.create (objD 1), .create (objD 2), .create (objD 3), .sleep 5,
           .destroyCall (objD 3)] ⟨[objD 1, objD 2], false, false⟩ .noneV := by
  constructor <;>
    simp [sound, movie, soundLength, movieLength, emitOnset, destroy_object,
      destroyAttempt, destroyLoop, normalizeArg, env0, objD, Attempt.events,
      List.erase] <;> decide

/-- C3, failing evaluation.  `crosshair` (unlike `write`) has no
`duration == 0` override: with `duration=0, block=True` it blocks, sleeps 0
and destroys the objects immediately, while `write` with the same arguments
is forced non-blocking, destroys nothing and returns the handle. -/
theorem C3_code_bug_eval :
    (crosshair env0 ⟨[], false, false⟩ (objD 1) (objD 2) (.num 0) true) =
      .ok [.create (objD 1), .create (objD 2), .sleep 0,
           .destroyCall (objD 1), .destroyCall (objD 2)]
        ⟨[], false, false⟩ .noneV ∧
    (write env0 ⟨[], false, false⟩ (objD 1) (.num 0) true) =
      .ok [.create (objD 1)] ⟨[objD 1], false, false⟩ (.handle (objD 1)) := by
  constructor <;>
    simp [crosshair, write, emitOnset, blockTail, destroy_object,
      destroyAttempt, destroyLoop, normalizeArg, env0, objD, waitEvents,
      Attempt.events, List.erase]

/-- C5, counterexample.  `_destroy_object` completes without failure (no
warning) on `[x, y]` where `x` has neither `destroy` nor `stop`: removing `x`
from the list being iterated skips `y`, which is therefore never removed from
`_to_destroy`. -/
theorem C5_counterexample :
    Event.warn ∉ (destroy_object env0 ⟨[objPlain 1, objD 2], true, false⟩
      (.many [some (objPlain 1), some (objD 2)]) 5).1 ∧
    some (objD 2) ∈ [some (objPlain 1), some (objD 2)] ∧
    objD 2 ∈ (destroy_object env0 ⟨[objPlain 1, objD 2], true, false⟩
      (.many [some (objPlain 1), some (objD 2)]) 5).2.to_destroy := by
  refine ⟨?_, by decide, ?_⟩ <;>
    simp [destroy_object, destroyAttempt, destroyLoop, normalizeArg, env0,
      objD, objPlain, Attempt.events, Attempt.td, List.erase]

/-- C7, counterexample.  `sound` with `surround=True` writes the `audio3d`
instance field (lazy initialization, lines 276-278), so `_to_destroy` and
`implicit_markers` are not the only instance state written by the stimulus
factories. -/
theorem C7_counterexample :
    (⟨[], false, false⟩ : StimState).audio3d = false ∧
    (sound env0 ⟨[], false, false⟩ (objD 1) 3 false none false 0 1
      true).state.audio3d = true := by
  refine ⟨rfl, ?_⟩
  simp [sound, soundLength, emitOnset, env0, objD, Res.state]

/-- Specialization of the loop/structural correspondence: a successful run of
the destruction loop on elements that all have `destroy` or `stop` removes
every given non-None element from a duplicate-free tracking list. -/
theorem destroyLoop_ok_removes (os : List (Option Obj)) (td : List Obj)
    (evs evs' : List Event) (td' : List Obj) (hnd : td.Nodup)
    (hds : ∀ o : Obj, some o ∈ os → o.hasDestroy = true ∨ o.hasStop = true)
    (h : destroyLoop os 0 td evs = .ok evs' td') :
    ∀ o : Obj, some o ∈ os → o ∉ td' := by
  rw [destroyLoop_eq_processDS os 0 td evs hds, List.drop_zero] at h
  exact processDS_ok_removes os td evs hnd evs' td' h

/-- C4: `_destroy_object` never raises.  In the embedding, methods that can
raise return an exceptional value (`Attempt`, `Res`); `_destroy_object`
returns a plain pair because its whole body sits in `try: ... except:`.
For every input the wrapper returns normally: the trace is the trace of the
`try` body followed by exactly one warning when (and only when) the body
raised — any failure during marker emission, element destruction, or list
removal is reduced to that warning. -/
theorem C4_destroy_object_never_raises (env : Env) (s : StimState)
    (arg : DArg) (id : Int) :
    destroy_object env s arg id =
      ((destroyAttempt env s (normalizeArg arg) id).events ++
        (if (destroyAttempt env s (normalizeArg arg) id).isRaised
          then [Event.warn] else []),
       { s with to_destroy := (destroyAttempt env s (normalizeArg arg) id).td }) ∧
    (destroy_object env s arg id).1.count Event.warn =
      (if (destroyAttempt env s (normalizeArg arg) id).isRaised then 1 else 0) := by
  refine ⟨?_, destroy_object_warn_count env s arg id⟩
  rw [destroy_object]
  cases destroyAttempt env s (normalizeArg arg) id <;>
    simp [Attempt.events, Attempt.isRaised, Attempt.td]

/-- C5, amended: when `_destroy_object` completes without an internal failure
(no warning) on a duplicate-free tracking list, the completion marker is
emitted when the id is positive and `implicit_markers` is on; and provided
every given non-None element has a `destroy` or `stop` attribute (so that
the skipping `obj.remove(ele)` branch is never taken), every given non-None
element is removed from `_to_destroy`. -/
theorem C5_amended (env : Env) (s : StimState) (os : List (Option Obj))
    (id : Int)
    (hds : ∀ o : Obj, some o ∈ os → o.hasDestroy = true ∨ o.hasStop = true)
    (hnd : s.to_destroy.Nodup)
    (hok : Event.warn ∉ (destroy_object env s (.many os) id).1) :
    (∀ o : Obj, some o ∈ os →
       o ∉ (destroy_object env s (.many os) id).2.to_destroy) ∧
    (0 < id → s.implicit_markers = true →
       Event.marker id ∈ (destroy_object env s (.many os) id).1) := by
  constructor
  · intro o hmo
    by_cases hg : 0 < id ∧ s.implicit_markers
    · cases hmr : env.markerRaises with
      | true =>
        exfalso
        apply hok
        rw [destroy_object, destroyAttempt, if_pos hg, hmr]
        simp
      | false =>
        rw [destroy_object, destroyAttempt, if_pos hg, hmr] at hok ⊢
        simp only [Bool.false_eq_true, ↓reduceIte] at hok ⊢
        cases hL : destroyLoop (normalizeArg (.many os)) 0 s.to_destroy
            [Event.marker id] with
        | ok evs td =>
          exact destroyLoop_ok_removes _ _ _ _ _ hnd hds hL o hmo
        | raised evs td =>
          rw [hL] at hok
          exact absurd (by simp : Event.warn ∈ evs ++ [Event.warn]) hok
    · rw [destroy_object, destroyAttempt, if_neg hg] at hok ⊢
      cases hL : destroyLoop (normalizeArg (.many os)) 0 s.to_destroy [] with
      | ok evs td =>
        exact destroyLoop_ok_removes _ _ _ _ _ hnd hds hL o hmo
      | raised evs td =>
        rw [hL] at hok
        exact absurd (by simp : Event.warn ∈ evs ++ [Event.warn]) hok
  · intro hid him
    by_cases hmr : env.markerRaises = true
    · exfalso
      apply hok
      rw [destroy_object, destroyAttempt, if_pos ⟨hid, him⟩, hmr]
      simp [Attempt.events]
    · obtain ⟨rest, hr⟩ := destroy_object_marker_head env s (.many os) id him
        (by simpa using hmr) hid
      rw [hr]
      exact List.mem_cons_self _ _
/-- C10: the destruction of a list of destroyable objects in which the
element after the prefix `as` fails (its `destroy` raises, or its removal
from `_to_destroy` fails because it is not tracked) runs inside one `try`
block: the prefix has already been destroyed and removed, the elements after
the failing one are neither destroyed nor removed, and the whole failure is
reduced to a single warning. -/
theorem C10_partial_destruction (env : Env) (s : StimState)
    (as : List Obj) (bad : Obj) (bs : List Obj) (id : Int)
    (hmr : env.markerRaises = false)
    (hD : ∀ o ∈ as ++ bad :: bs, o.hasDestroy = true)
    (hA : ∀ a ∈ as, a.destroyRaises = false)
    (hnd : (as ++ bad :: bs).Nodup)
    (htd : s.to_destroy.Nodup)
    (hsubA : ∀ a ∈ as, a ∈ s.to_destroy)
    (hsubB : ∀ b ∈ bs, b ∈ s.to_destroy)
    (hbad : bad.destroyRaises = true ∨ bad ∉ s.to_destroy) :
    (∀ a ∈ as,
       Event.destroyCall a ∈
         (destroy_object env s (.many ((as ++ bad :: bs).map some)) id).1 ∧
       a ∉ (destroy_object env s
         (.many ((as ++ bad :: bs).map some)) id).2.to_destroy) ∧
    (∀ b ∈ bs,
       Event.destroyCall b ∉
         (destroy_object env s (.many ((as ++ bad :: bs).map some)) id).1 ∧
       b ∈ (destroy_object env s
         (.many ((as ++ bad :: bs).map some)) id).2.to_destroy) ∧
    (destroy_object env s
      (.many ((as ++ bad :: bs).map some)) id).1.count Event.warn = 1 := by
  have hh : ∀ o : Obj, some o ∈ (as ++ bad :: bs).map some →
      o.hasDestroy = true ∨ o.hasStop = true := by
    intro o hmo
    simp only [List.mem_map, Option.some.injEq] at hmo
    obtain ⟨x, hx, rfl⟩ := hmo
    exact Or.inl (hD x hx)
  have hndA : as.Nodup := (List.nodup_append.mp hnd).1
  have hdisj : ∀ b ∈ bs, b ∉ as ∧ b ≠ bad := by
    intro b hb
    obtain ⟨hn1, hn2, hn3⟩ := List.nodup_append.mp hnd
    refine ⟨fun hba => hn3 hba (List.mem_cons_of_mem bad hb), fun hbb => ?_⟩
    subst hbb
    exact (List.nodup_cons.mp hn2).1 hb
  obtain ⟨tdF, heq, h1, h2, h3⟩ :=
    processDS_prefix_raise as bad bs s.to_destroy
      (if 0 < id ∧ s.implicit_markers then [Event.marker id] else [])
      (fun a ha => ⟨hD a (List.mem_append_left _ ha), hA a ha⟩)
      (hD bad (List.mem_append_right _ (List.mem_cons_self bad bs)))
      hndA hsubA htd hbad
  have hDO : destroy_object env s (.many ((as ++ bad :: bs).map some)) id =
      ((if 0 < id ∧ s.implicit_markers then [Event.marker id] else []) ++
        as.map Event.destroyCall ++
        (if bad.destroyRaises = true then [] else [Event.destroyCall bad]) ++
        [Event.warn],
       { s with to_destroy := tdF }) := by
    rw [destroy_object, destroyAttempt]
    rw [show normalizeArg (DArg.many ((as ++ bad :: bs).map some)) =
      (as ++ bad :: bs).map some from rfl]
    by_cases hg : 0 < id ∧ s.implicit_markers
    · rw [if_pos hg, hmr]
      simp only [Bool.false_eq_true, ↓reduceIte]
      rw [destroyLoop_eq_processDS _ _ _ _ hh, List.drop_zero]
      rw [if_pos hg] at heq
      rw [heq, if_pos hg]
    · rw [if_neg hg]
      rw [destroyLoop_eq_processDS _ _ _ _ hh, List.drop_zero]
      rw [if_neg hg] at heq
      rw [heq, if_neg hg]
  rw [hDO]
  dsimp only
  refine ⟨?_, ?_, ?_⟩
  · intro a ha
    refine ⟨?_, h1 a ha⟩
    simp only [List.mem_append, List.mem_map]
    exact Or.inl (Or.inl (Or.inr ⟨a, ha, rfl⟩))
  · intro b hb
    obtain ⟨hbas, hbbad⟩ := hdisj b hb
    refine ⟨?_, h3 b (hsubB b hb) hbas⟩
    intro hmem
    simp only [List.mem_append] at hmem
    rcases hmem with ((hmk | hmap) | hif) | hw
    · revert hmk
      by_cases hgg : 0 < id ∧ s.implicit_markers
      · rw [if_pos hgg]
        simp
      · rw [if_neg hgg]
        simp
    · rw [List.mem_map] at hmap
      obtain ⟨x, hx, hxe⟩ := hmap
      apply hbas
      have hxb : x = b := by injection hxe
      rwa [hxb] at hx
    · revert hif
      by_cases hbr : bad.destroyRaises = true
      · rw [if_pos hbr]
        simp
      · rw [if_neg hbr]
        simp only [List.mem_singleton]
        intro hbe
        apply hbbad
        injection hbe
    · exact absurd hw (by simp)
  · have c1 : (if 0 < id ∧ s.implicit_markers then [Event.marker id]
        else []).count Event.warn = 0 := by
      by_cases hg : 0 < id ∧ s.implicit_markers
      · rw [if_pos hg]; rfl
      · rw [if_neg hg]; rfl
    have c2 : (as.map Event.destroyCall).count Event.warn = 0 := by
      rw [List.count_eq_zero]
      simp
    have c3 : (if bad.destroyRaises = true then []
        else [Event.destroyCall bad]).count Event.warn = 0 := by
      by_cases hbr : bad.destroyRaises = true
      · rw [if_pos hbr]; rfl
      · rw [if_neg hbr]; rfl
    simp only [List.count_append, c1, c2, c3]
    rfl
/-- `norm2` never raises: `None` and scalars skip the guard, and sequences
support `len`; the result is a scalar exactly when the input was. -/
theorem norm2_total (mid : Rat) (v : PyVal) :
    ∃ v', norm2 mid v = .ok v' ∧ v'.isNum = v.isNum := by
  cases v with
  | noneV => exact ⟨.noneV, rfl, rfl⟩
  | num x => exact ⟨.num x, rfl, rfl⟩
  | tup xs =>
    by_cases h : xs.length = 2
    · exact ⟨.tup [xs[0]!, mid, xs[1]!], by simp [norm2, pyLen, PyVal.isNum, h,
        Except.bind], rfl⟩
    · exact ⟨.tup xs, by simp [norm2, pyLen, PyVal.isNum, h, Except.bind], rfl⟩
  | nest w =>
    exact ⟨.nest w, by simp [norm2, pyLen, PyVal.isNum, Except.bind], rfl⟩

/-- When `hpr` is a scalar and `scale` is not, the hpr guard of `picture`
evaluates `len(hpr)` and raises `TypeError`. -/
theorem normHpr_scalar_raises (scale : PyVal) (h : Rat)
    (hs : scale.isNum = false) :
    normHpr scale (.num h) = .error .typeError := by
  simp [normHpr, pyLen, hs, Except.bind]

/-- C9: calling `picture` with `hpr` a scalar number while `scale` is not a
scalar number raises `TypeError` before any engine object is created: the
result is an exception with an empty trace and an unchanged instance state
(in particular nothing was appended to `_to_destroy`). -/
theorem C9_picture_hpr_guard_raises (env : Env) (s : StimState) (obj : Obj)
    (pos scale : PyVal) (d : Duration) (block : Bool) (h : Rat)
    (hs : scale.isNum = false) :
    picture env s obj pos (.num h) scale d block = .exn [] s .typeError := by
  obtain ⟨pos', hpos, -⟩ := norm2_total 0 pos
  obtain ⟨scale', hsc, hsnum⟩ := norm2_total 1 scale
  rw [picture, hpos, hsc]
  dsimp only
  rw [normHpr_scalar_raises scale' h (by rw [hsnum, hs])]
/-- The wait prescribed by a duration contains no marker events. -/
theorem waitEvents_no_marker (d : Duration) :
    hasMarkerB (waitEvents d) = false := by
  cases d <;> rfl

/-- Whatever branch `blockTail` takes, its trace extends the accumulated
events. -/
theorem blockTail_events_prefix (env : Env) (s : StimState) (evs : List Event)
    (arg : DArg) (c : Int) (d : Duration) (b : Bool) (r : Ret) :
    ∃ rest, (blockTail env s evs arg c d b r).events = evs ++ rest := by
  rw [blockTail.eq_def]
  cases b with
  | true =>
    simp only [↓reduceIte]
    exact ⟨waitEvents d ++ (destroy_object env s arg c).1, by
      simp [Res.events]⟩
  | false =>
    simp only [Bool.false_eq_true, ↓reduceIte]
    cases d with
    | num t =>
      dsimp only
      by_cases ht : 0 < t
      · rw [if_pos ht]
        exact ⟨[Event.schedule t arg c], rfl⟩
      · rw [if_neg ht]
        exact ⟨[], by simp [Res.events]⟩
    | event e => exact ⟨[], by simp [Res.events]⟩
    | hybrid t e => exact ⟨[], by simp [Res.events]⟩

/-- With `implicit_markers` off, `blockTail` adds no marker to a
marker-free accumulator. -/
theorem blockTail_no_marker (env : Env) (s : StimState) (evs : List Event)
    (arg : DArg) (c : Int) (d : Duration) (b : Bool) (r : Ret)
    (hf : s.implicit_markers = false) (he : hasMarkerB evs = false) :
    hasMarkerB (blockTail env s evs arg c d b r).events = false := by
  rw [blockTail.eq_def]
  cases b with
  | true =>
    simp only [↓reduceIte, Res.events]
    rw [hasMarkerB_append, hasMarkerB_append, he, waitEvents_no_marker,
      destroy_object_no_marker env s arg c hf]
    rfl
  | false =>
    simp only [Bool.false_eq_true, ↓reduceIte]
    cases d with
    | num t =>
      dsimp only
      by_cases ht : 0 < t
      · rw [if_pos ht]
        simp only [Res.events]
        rw [hasMarkerB_append, he]
        rfl
      · rw [if_neg ht]
        exact he
    | event e => exact he
    | hybrid t e => exact he

/-- In blocking mode `blockTail` waits as dictated by the duration and then
invokes `_destroy_object` on exactly the objects it was given. -/
theorem blockTail_true (env : Env) (s : StimState) (evs : List Event)
    (arg : DArg) (c : Int) (d : Duration) (r : Ret) :
    blockTail env s evs arg c d true r =
      .ok (evs ++ waitEvents d ++ (destroy_object env s arg c).1)
        (destroy_object env s arg c).2 .noneV := by
  rw [blockTail.eq_def]
  rfl

/-- `blockTail` never touches the `implicit_markers` and `audio3d` fields. -/
theorem blockTail_state_fields (env : Env) (s : StimState) (evs : List Event)
    (arg : DArg) (c : Int) (d : Duration) (b : Bool) (r : Ret) :
    (blockTail env s evs arg c d b r).state.implicit_markers =
      s.implicit_markers ∧
    (blockTail env s evs arg c d b r).state.audio3d = s.audio3d := by
  rw [blockTail.eq_def]
  cases b with
  | true =>
    simp only [↓reduceIte, Res.state]
    exact destroy_object_fields env s arg c
  | false =>
    simp only [Bool.false_eq_true, ↓reduceIte]
    cases d with
    | num t =>
      dsimp only
      by_cases ht : 0 < t
      · rw [if_pos ht]
        exact ⟨rfl, rfl⟩
      · rw [if_neg ht]
        exact ⟨rfl, rfl⟩
    | event e => exact ⟨rfl, rfl⟩
    | hybrid t e => exact ⟨rfl, rfl⟩

/-- `emitOnset` never touches the `implicit_markers` and `audio3d` fields
provided its continuation does not. -/
theorem emitOnset_state_fields (env : Env) (s : StimState) (evs : List Event)
    (code : Int) (k : List Event → Res)
    (hk : ∀ evs', (k evs').state.implicit_markers = s.implicit_markers ∧
      (k evs').state.audio3d = s.audio3d) :
    (emitOnset env s evs code k).state.implicit_markers =
      s.implicit_markers ∧
    (emitOnset env s evs code k).state.audio3d = s.audio3d := by
  rw [emitOnset]
  by_cases hm : s.implicit_markers = true
  · rw [if_pos hm]
    cases hmr : env.markerRaises
    · simp only [Bool.false_eq_true, ↓reduceIte]
      exact hk _
    · simp [Res.state]
  · rw [if_neg hm]
    exact hk _
/-- C7, amended: the stimulus operations write the `_to_destroy` list, and
`sound` additionally lazily initializes the `audio3d` field when
`surround=True`; no operation writes `implicit_markers`, and no operation
other than `sound` writes `audio3d`.  (The embedding's `StimState` consists
exactly of the instance fields the operations touch.) -/
theorem C7_amended (env : Env) (s : StimState)
    (o o1 o2 oL oR oT oB op tex img : Obj) (sndOpt : Option Obj)
    (d : Duration) (b : Bool) (pos hpr scale : PyVal)
    (len0 toff pr : Rat) (lc : Option Rat) (lp sur : Bool)
    (arg : DArg) (id : Int) :
    ((write env s o d b).state.implicit_markers = s.implicit_markers ∧
     (write env s o d b).state.audio3d = s.audio3d) ∧
    ((crosshair env s o1 o2 d b).state.implicit_markers =
       s.implicit_markers ∧
     (crosshair env s o1 o2 d b).state.audio3d = s.audio3d) ∧
    ((rectangle env s o d b).state.implicit_markers = s.implicit_markers ∧
     (rectangle env s o d b).state.audio3d = s.audio3d) ∧
    ((frame env s oL oR oT oB d b).state.implicit_markers =
       s.implicit_markers ∧
     (frame env s oL oR oT oB d b).state.audio3d = s.audio3d) ∧
    ((picture env s op pos hpr scale d b).state.implicit_markers =
       s.implicit_markers ∧
     (picture env s op pos hpr scale d b).state.audio3d = s.audio3d) ∧
    ((movie env s sndOpt tex img len0 pr lc lp toff b).state.implicit_markers
       = s.implicit_markers ∧
     (movie env s sndOpt tex img len0 pr lc lp toff b).state.audio3d =
       s.audio3d) ∧
    ((sound env s o len0 b lc lp toff pr sur).state.implicit_markers =
       s.implicit_markers ∧
     (sound env s o len0 b lc lp toff pr sur).state.audio3d =
       (s.audio3d || sur)) ∧
    ((destroy_object env s arg id).2.implicit_markers = s.implicit_markers ∧
     (destroy_object env s arg id).2.audio3d = s.audio3d) := by
  refine ⟨?_, ?_, ?_, ?_, ?_, ?_, ?_, destroy_object_fields env s arg id⟩
  · exact emitOnset_state_fields env _ _ _ _
      (fun evs' => blockTail_state_fields env _ evs' _ _ _ _ _)
  · exact emitOnset_state_fields env _ _ _ _
      (fun evs' => blockTail_state_fields env _ evs' _ _ _ _ _)
  · exact emitOnset_state_fields env _ _ _ _
      (fun evs' => blockTail_state_fields env _ evs' _ _ _ _ _)
  · exact emitOnset_state_fields env _ _ _ _
      (fun evs' => blockTail_state_fields env _ evs' _ _ _ _ _)
  · obtain ⟨pos', hpos, -⟩ := norm2_total 0 pos
    obtain ⟨scale', hsc, -⟩ := norm2_total 1 scale
    rw [picture, hpos, hsc]
    dsimp only
    cases hnh : normHpr scale' hpr with
    | error e => exact ⟨rfl, rfl⟩
    | ok w =>
      exact emitOnset_state_fields env _ _ _ _
        (fun evs' => blockTail_state_fields env _ evs' _ _ _ _ _)
  · cases sndOpt with
    | none =>
      rw [movie]
      refine emitOnset_state_fields env _ _ _ _ ?_
      intro evs'
      by_cases hb : b = true
      · rw [if_pos hb]
        exact destroy_object_fields env _ _ _
      · rw [if_neg hb]
        exact ⟨rfl, rfl⟩
    | some snd =>
      rw [movie]
      refine emitOnset_state_fields env _ _ _ _ ?_
      intro evs'
      by_cases hb : b = true
      · rw [if_pos hb]
        exact destroy_object_fields env _ _ _
      · rw [if_neg hb]
        exact ⟨rfl, rfl⟩
  · cases sur with
    | true =>
      simp only [Bool.or_true]
      rw [sound]
      refine emitOnset_state_fields env _ _ _ _ ?_
      intro evs'
      by_cases hb : b = true
      · rw [if_pos hb]
        exact destroy_object_fields env _ _ _
      · rw [if_neg hb]
        exact ⟨rfl, rfl⟩
    | false =>
      simp only [Bool.or_false]
      rw [sound]
      refine emitOnset_state_fields env _ _ _ _ ?_
      intro evs'
      by_cases hb : b = true
      · rw [if_pos hb]
        exact destroy_object_fields env _ _ _
      · rw [if_neg hb]
        exact ⟨rfl, rfl⟩
/-- With the flag off, the onset-marker guard is skipped. -/
theorem emitOnset_false (env : Env) (s : StimState) (evs : List Event)
    (code : Int) (k : List Event → Res) (hm : s.implicit_markers = false) :
    emitOnset env s evs code k = k evs := by
  rw [emitOnset, if_neg (by simp [hm])]

/-- With the flag on and a working transport, the onset marker is appended
before the continuation runs. -/
theorem emitOnset_true (env : Env) (s : StimState) (evs : List Event)
    (code : Int) (k : List Event → Res) (hm : s.implicit_markers = true)
    (h1 : env.markerRaises = false) :
    emitOnset env s evs code k = k (evs ++ [Event.marker code]) := by
  rw [emitOnset, if_pos hm, h1]
  simp

/-- A marker in the accumulated prefix survives `blockTail`. -/
theorem blockTail_has_marker (env : Env) (s : StimState) (evs : List Event)
    (arg : DArg) (c : Int) (d : Duration) (b : Bool) (r : Ret)
    (he : hasMarkerB evs = true) :
    hasMarkerB (blockTail env s evs arg c d b r).events = true := by
  obtain ⟨rest, hp⟩ := blockTail_events_prefix env s evs arg c d b r
  rw [hp, hasMarkerB_append, he]
  rfl

/-- A marker in a prefix survives appending. -/
theorem hasMarkerB_prefix_true (a b : List Event) (h : hasMarkerB a = true) :
    hasMarkerB (a ++ b) = true := by
  rw [hasMarkerB_append, h]
  rfl

/-- C8: with a working marker transport, a stimulus factory call or a
`_destroy_object` call (with a positive id) emits a marker exactly when
`implicit_markers` is on.  (`picture` is taken with `None` geometry
parameters so that its normalization guards pass; cf. the C9 theorem for the
failing guard.) -/
theorem C8_markers_iff_flag (env : Env) (s : StimState)
    (o o1 o2 oL oR oT oB op tex img : Obj) (sndOpt : Option Obj)
    (d : Duration) (b : Bool) (len0 toff pr : Rat) (lc : Option Rat)
    (lp sur : Bool) (arg : DArg) (id : Int)
    (h1 : env.markerRaises = false) (hid : 0 < id) :
    hasMarkerB (write env s o d b).events = s.implicit_markers ∧
    hasMarkerB (crosshair env s o1 o2 d b).events = s.implicit_markers ∧
    hasMarkerB (rectangle env s o d b).events = s.implicit_markers ∧
    hasMarkerB (frame env s oL oR oT oB d b).events = s.implicit_markers ∧
    hasMarkerB (picture env s op .noneV .noneV .noneV d b).events =
      s.implicit_markers ∧
    hasMarkerB (sound env s o len0 b lc lp toff pr sur).events =
      s.implicit_markers ∧
    hasMarkerB (movie env s sndOpt tex img len0 pr lc lp toff b).events =
      s.implicit_markers ∧
    hasMarkerB (destroy_object env s arg id).1 = s.implicit_markers := by
  refine ⟨?_, ?_, ?_, ?_, ?_, ?_, ?_, ?_⟩
  · cases hm : s.implicit_markers with
    | false =>
      rw [write, emitOnset_false]
      · exact blockTail_no_marker env _ _ _ _ _ _ _ hm rfl
      · exact hm
    | true =>
      rw [write, emitOnset_true]
      · exact blockTail_has_marker env _ _ _ _ _ _ _ rfl
      · exact hm
      · exact h1
  · cases hm : s.implicit_markers with
    | false =>
      rw [crosshair, emitOnset_false]
      · exact blockTail_no_marker env _ _ _ _ _ _ _ hm rfl
      · exact hm
    | true =>
      rw [crosshair, emitOnset_true]
      · exact blockTail_has_marker env _ _ _ _ _ _ _ rfl
      · exact hm
      · exact h1
  · cases hm : s.implicit_markers with
    | false =>
      rw [rectangle, emitOnset_false]
      · exact blockTail_no_marker env _ _ _ _ _ _ _ hm rfl
      · exact hm
    | true =>
      rw [rectangle, emitOnset_true]
      · exact blockTail_has_marker env _ _ _ _ _ _ _ rfl
      · exact hm
      · exact h1
  · cases hm : s.implicit_markers with
    | false =>
      rw [frame, emitOnset_false]
      · exact blockTail_no_marker env _ _ _ _ _ _ _ hm rfl
      · exact hm
    | true =>
      rw [frame, emitOnset_true]
      · exact blockTail_has_marker env _ _ _ _ _ _ _ rfl
      · exact hm
      · exact h1
  · rw [picture]
    dsimp only [norm2, normHpr]
    cases hm : s.implicit_markers with
    | false =>
      rw [emitOnset_false]
      · exact blockTail_no_marker env _ _ _ _ _ _ _ rfl rfl
      · rfl
    | true =>
      rw [emitOnset_true]
      · exact blockTail_has_marker env _ _ _ _ _ _ _ rfl
      · rfl
      · exact h1
  · cases hm : s.implicit_markers with
    | false =>
      rw [sound, emitOnset_false]
      · by_cases hb : b = true
        · rw [if_pos hb]
          dsimp only [Res.events]
          rw [hasMarkerB_append, hasMarkerB_append, destroy_object_no_marker]
          · rfl
          · cases sur <;> simpa using hm
        · rw [if_neg hb]
          rfl
      · cases sur <;> simpa using hm
    | true =>
      rw [sound, emitOnset_true]
      · by_cases hb : b = true
        · rw [if_pos hb]
          dsimp only [Res.events]
          exact hasMarkerB_prefix_true _ _ (hasMarkerB_prefix_true _ _ rfl)
        · rw [if_neg hb]
          exact hasMarkerB_prefix_true _ _ rfl
      · cases sur <;> simpa using hm
      · exact h1
  · cases sndOpt with
    | none =>
      cases hm : s.implicit_markers with
      | false =>
        rw [movie, emitOnset_false]
        · by_cases hb : b = true
          · rw [if_pos hb]
            dsimp only [Res.events]
            rw [hasMarkerB_append, hasMarkerB_append, destroy_object_no_marker]
            · rfl
            · exact hm
          · rw [if_neg hb]
            rfl
        · exact hm
      | true =>
        rw [movie, emitOnset_true]
        · by_cases hb : b = true
          · rw [if_pos hb]
            dsimp only [Res.events]
            exact hasMarkerB_prefix_true _ _ (hasMarkerB_prefix_true _ _ rfl)
          · rw [if_neg hb]
            exact hasMarkerB_prefix_true _ _ rfl
        · exact hm
        · exact h1
    | some snd =>
      cases hm : s.implicit_markers with
      | false =>
        rw [movie, emitOnset_false]
        · by_cases hb : b = true
          · rw [if_pos hb]
            dsimp only [Res.events]
            rw [hasMarkerB_append, hasMarkerB_append, destroy_object_no_marker]
            · rfl
            · exact hm
          · rw [if_neg hb]
            rfl
        · exact hm
      | true =>
        rw [movie, emitOnset_true]
        · by_cases hb : b = true
          · rw [if_pos hb]
            dsimp only [Res.events]
            exact hasMarkerB_prefix_true _ _ (hasMarkerB_prefix_true _ _ rfl)
          · rw [if_neg hb]
            exact hasMarkerB_prefix_true _ _ rfl
        · exact hm
        · exact h1
  · cases hm : s.implicit_markers with
    | false => exact destroy_object_no_marker env s arg id hm
    | true =>
      obtain ⟨rest, hr⟩ := destroy_object_marker_head env s arg id hm h1 hid
      rw [hr]
      rfl
/-- `picture` with `None` geometry parameters passes all three normalization
guards unchanged. -/
theorem picture_noneV (env : Env) (s : StimState) (op : Obj) (d : Duration)
    (b : Bool) :
    picture env s op .noneV .noneV .noneV d b =
      (emitOnset env { s with to_destroy := s.to_destroy ++ [op] }
        [.create op] 248 fun evs =>
          blockTail env { s with to_destroy := s.to_destroy ++ [op] } evs
            (.single (some op)) 249 d (if d = .num 0 then false else b)
            (.handle op)) := rfl

/-- C6: in blocking mode every visual factory performs the wait dictated by
the duration — `waitEvents` maps a `[number, string]` pair to a sleep
followed by an event wait, a string to an event wait, and a number to a
sleep — and the created object(s) are handed to `_destroy_object`
immediately after the wait, with the factory's completion code.
(`duration = 0` is excluded: `write`, `rectangle` and `picture` force
non-blocking mode there.) -/
theorem C6_blocking_duration_forms (env : Env) (s : StimState)
    (o o1 o2 oL oR oT oB op : Obj) (d : Duration)
    (h1 : env.markerRaises = false) (hd : d ≠ .num 0) :
    (write env s o d true).events =
      [Event.create o] ++
      (if s.implicit_markers then [Event.marker 254] else []) ++
      waitEvents d ++
      (destroy_object env { s with to_destroy := s.to_destroy ++ [o] }
        (.single (some o)) 255).1 ∧
    (crosshair env s o1 o2 d true).events =
      [Event.create o1, Event.create o2] ++
      (if s.implicit_markers then [Event.marker 252] else []) ++
      waitEvents d ++
      (destroy_object env
        { s with to_destroy := s.to_destroy ++ [o1] ++ [o2] }
        (.many [some o1, some o2]) 253).1 ∧
    (rectangle env s o d true).events =
      [Event.create o] ++
      (if s.implicit_markers then [Event.marker 250] else []) ++
      waitEvents d ++
      (destroy_object env { s with to_destroy := s.to_destroy ++ [o] }
        (.single (some o)) 251).1 ∧
    (frame env s oL oR oT oB d true).events =
      [Event.create oL, Event.create oR, Event.create oT, Event.create oB] ++
      (if s.implicit_markers then [Event.marker 242] else []) ++
      waitEvents d ++
      (destroy_object env
        { s with to_destroy :=
            s.to_destroy ++ [oL] ++ [oR] ++ [oT] ++ [oB] }
        (.many [some oL, some oR, some oT, some oB]) 243).1 ∧
    (picture env s op .noneV .noneV .noneV d true).events =
      [Event.create op] ++
      (if s.implicit_markers then [Event.marker 248] else []) ++
      waitEvents d ++
      (destroy_object env { s with to_destroy := s.to_destroy ++ [op] }
        (.single (some op)) 249).1 := by
  refine ⟨?_, ?_, ?_, ?_, ?_⟩
  · rw [write]
    rw [if_neg hd]
    cases hm : s.implicit_markers with
    | false =>
      rw [emitOnset_false]
      · rw [blockTail_true]
        dsimp only [Res.events]
        simp
      · rfl
    | true =>
      rw [emitOnset_true]
      · rw [blockTail_true]
        dsimp only [Res.events]
        simp
      · rfl
      · exact h1
  · rw [crosshair]
    cases hm : s.implicit_markers with
    | false =>
      rw [emitOnset_false]
      · rw [blockTail_true]
        dsimp only [Res.events]
        simp
      · rfl
    | true =>
      rw [emitOnset_true]
      · rw [blockTail_true]
        dsimp only [Res.events]
        simp
      · rfl
      · exact h1
  · rw [rectangle]
    rw [if_neg hd]
    cases hm : s.implicit_markers with
    | false =>
      rw [emitOnset_false]
      · rw [blockTail_true]
        dsimp only [Res.events]
        simp
      · rfl
    | true =>
      rw [emitOnset_true]
      · rw [blockTail_true]
        dsimp only [Res.events]
        simp
      · rfl
      · exact h1
  · rw [frame]
    cases hm : s.implicit_markers with
    | false =>
      rw [emitOnset_false]
      · rw [blockTail_true]
        dsimp only [Res.events]
        simp
      · rfl
    | true =>
      rw [emitOnset_true]
      · rw [blockTail_true]
        dsimp only [Res.events]
        simp
      · rfl
      · exact h1
  · rw [picture_noneV]
    rw [if_neg hd]
    cases hm : s.implicit_markers with
    | false =>
      rw [emitOnset_false]
      · rw [blockTail_true]
        dsimp only [Res.events]
        simp
      · rfl
    | true =>
      rw [emitOnset_true]
      · rw [blockTail_true]
        dsimp only [Res.events]
        simp
      · rfl
      · exact h1
/-- C1, amended: with implicit markers on, every factory emits its fixed
onset code right after creating (and, for sound/movie, starting) its engine
object(s) — 254, 252, 250, 242, 248, 246, 244 for write, crosshair,
rectangle, frame, picture, sound, movie — and the destruction emits the
completion code one MORE than the onset code (255, 253, 251, 243, 249, 247,
245), shown here for blocking calls where the destruction happens within the
call. -/
theorem C1_amended (env : Env) (s : StimState)
    (o o1 o2 oL oR oT oB op tex img : Obj) (sndOpt : Option Obj)
    (d : Duration) (len0 toff pr : Rat) (lc : Option Rat) (lp : Bool)
    (h1 : env.markerRaises = false) (h2 : s.implicit_markers = true)
    (hd : d ≠ .num 0) :
    (∃ r1, (write env s o d true).events =
       [Event.create o, Event.marker 254] ++ waitEvents d ++
       Event.marker 255 :: r1) ∧
    (∃ r2, (crosshair env s o1 o2 d true).events =
       [Event.create o1, Event.create o2, Event.marker 252] ++
       waitEvents d ++ Event.marker 253 :: r2) ∧
    (∃ r3, (rectangle env s o d true).events =
       [Event.create o, Event.marker 250] ++ waitEvents d ++
       Event.marker 251 :: r3) ∧
    (∃ r4, (frame env s oL oR oT oB d true).events =
       [Event.create oL, Event.create oR, Event.create oT, Event.create oB,
        Event.marker 242] ++ waitEvents d ++ Event.marker 243 :: r4) ∧
    (∃ r5, (picture env s op .noneV .noneV .noneV d true).events =
       [Event.create op, Event.marker 248] ++ waitEvents d ++
       Event.marker 249 :: r5) ∧
    (∃ r6, (sound env s o len0 true lc lp toff pr false).events =
       [Event.create o, Event.marker 246,
        Event.sleep (soundLength len0 lc lp toff pr), Event.marker 247]
       ++ r6) ∧
    (∃ r7, (movie env s sndOpt tex img len0 pr lc lp toff true).events =
       (sndOpt.toList.map Event.create) ++
       [Event.create tex, Event.create img, Event.marker 244,
        Event.sleep (movieLength len0 pr lc lp toff), Event.marker 245]
       ++ r7) := by
  refine ⟨?_, ?_, ?_, ?_, ?_, ?_, ?_⟩
  · rw [write, if_neg hd, emitOnset_true]
    · rw [blockTail_true]
      dsimp only [Res.events]
      obtain ⟨rest, hr⟩ := destroy_object_marker_head env
        { s with to_destroy := s.to_destroy ++ [o] } (.single (some o)) 255
        h2 h1 (by norm_num)
      rw [hr]
      exact ⟨rest, by simp⟩
    · exact h2
    · exact h1
  · rw [crosshair, emitOnset_true]
    · rw [blockTail_true]
      dsimp only [Res.events]
      obtain ⟨rest, hr⟩ := destroy_object_marker_head env
        { s with to_destroy := s.to_destroy ++ [o1] ++ [o2] }
        (.many [some o1, some o2]) 253 h2 h1 (by norm_num)
      rw [hr]
      exact ⟨rest, by simp⟩
    · exact h2
    · exact h1
  · rw [rectangle, if_neg hd, emitOnset_true]
    · rw [blockTail_true]
      dsimp only [Res.events]
      obtain ⟨rest, hr⟩ := destroy_object_marker_head env
        { s with to_destroy := s.to_destroy ++ [o] } (.single (some o)) 251
        h2 h1 (by norm_num)
      rw [hr]
      exact ⟨rest, by simp⟩
    · exact h2
    · exact h1
  · rw [frame, emitOnset_true]
    · rw [blockTail_true]
      dsimp only [Res.events]
      obtain ⟨rest, hr⟩ := destroy_object_marker_head env
        { s with to_destroy :=
            s.to_destroy ++ [oL] ++ [oR] ++ [oT] ++ [oB] }
        (.many [some oL, some oR, some oT, some oB]) 243 h2 h1 (by norm_num)
      rw [hr]
      exact ⟨rest, by simp⟩
    · exact h2
    · exact h1
  · rw [picture_noneV, if_neg hd, emitOnset_true]
    · rw [blockTail_true]
      dsimp only [Res.events]
      obtain ⟨rest, hr⟩ := destroy_object_marker_head env
        { s with to_destroy := s.to_destroy ++ [op] } (.single (some op)) 249
        h2 h1 (by norm_num)
      rw [hr]
      exact ⟨rest, by simp⟩
    · exact h2
    · exact h1
  · rw [sound, emitOnset_true]
    · simp only [Bool.false_eq_true, ↓reduceIte, Res.events]
      obtain ⟨rest, hr⟩ := destroy_object_marker_head env
        { s with to_destroy := s.to_destroy ++ [o] } (.single (some o)) 247
        h2 h1 (by norm_num)
      rw [hr]
      exact ⟨rest, by simp⟩
    · exact h2
    · exact h1
  · cases sndOpt with
    | none =>
      rw [movie, emitOnset_true]
      · simp only [↓reduceIte, Res.events]
        obtain ⟨rest, hr⟩ := destroy_object_marker_head env
          { s with to_destroy := s.to_destroy ++ [tex] ++ [img] }
          (.single (some img)) 245 h2 h1 (by norm_num)
        rw [hr]
        exact ⟨rest, by simp⟩
      · exact h2
      · exact h1
    | some snd =>
      rw [movie, emitOnset_true]
      · simp only [↓reduceIte, Res.events]
        obtain ⟨rest, hr⟩ := destroy_object_marker_head env
          { s with to_destroy := s.to_destroy ++ [snd] ++ [tex] ++ [img] }
          (.single (some img)) 245 h2 h1 (by norm_num)
        rw [hr]
        exact ⟨rest, by simp⟩
      · exact h2
      · exact h1
/-- Witness for C1 at a concrete blocking `write` with a hybrid duration. -/
theorem C1_amended_witness :
    ∃ r1, (write env0 ⟨[], true, false⟩ (objD 0) (.hybrid 2 "go")
        true).events =
      [Event.create (objD 0), Event.marker 254] ++
      waitEvents (.hybrid 2 "go") ++ Event.marker 255 :: r1 :=
  (C1_amended env0 ⟨[], true, false⟩ (objD 0) (objD 1) (objD 2) (objD 3)
    (objD 4) (objD 5) (objD 6) (objD 7) (objD 8) (objD 9) (some (objD 10))
    (.hybrid 2 "go") 3 0 1 none false rfl rfl (by decide)).1

/-- Witness for C5 at a concrete successful destruction. -/
theorem C5_amended_witness :
    objD 1 ∉ (destroy_object env0 ⟨[objD 1], true, false⟩
      (.many [some (objD 1)]) 5).2.to_destroy :=
  (C5_amended env0 ⟨[objD 1], true, false⟩ [some (objD 1)] 5
    (by
      intro o ho
      simp only [List.mem_singleton, Option.some.injEq] at ho
      subst ho
      exact Or.inl rfl)
    (by simp)
    (by
      simp [destroy_object, destroyAttempt, destroyLoop, normalizeArg, env0,
        objD, Attempt.events, List.erase])).1
    (objD 1) (by simp)

/-- Witness for C6 at a concrete blocking `write` with an event-gated
duration. -/
theorem C6_blocking_witness :
    (write env0 ⟨[], false, false⟩ (objD 0) (.event "go") true).events =
      [Event.create (objD 0)] ++ [] ++ waitEvents (.event "go") ++
      (destroy_object env0 ⟨[objD 0], false, false⟩
        (.single (some (objD 0))) 255).1 :=
  (C6_blocking_duration_forms env0 ⟨[], false, false⟩ (objD 0) (objD 1)
    (objD 2) (objD 3) (objD 4) (objD 5) (objD 6) (objD 7) (.event "go")
    rfl (by decide)).1

/-- Witness for C8 at a concrete call with the flag off. -/
theorem C8_markers_witness :
    hasMarkerB (write env0 ⟨[], false, false⟩ (objD 0) (.num 1)
      true).events = false :=
  (C8_markers_iff_flag env0 ⟨[], false, false⟩ (objD 0) (objD 1) (objD 2)
    (objD 3) (objD 4) (objD 5) (objD 6) (objD 7) (objD 8) (objD 9)
    (some (objD 10)) (.num 1) true 3 0 1 none false false
    (.single (some (objD 0))) 5 rfl (by decide)).1

/-- Witness for C9 at a concrete scalar hpr with None scale. -/
theorem C9_picture_witness :
    picture env0 ⟨[], false, false⟩ (objD 0) .noneV (.num 5) .noneV
      (.num 1) true = .exn [] ⟨[], false, false⟩ .typeError :=
  C9_picture_hpr_guard_raises env0 ⟨[], false, false⟩ (objD 0) .noneV
    .noneV (.num 1) true 5 rfl

/-- Witness for C10 at a concrete three-element destruction whose middle
element's `destroy` raises. -/
theorem C10_partial_witness :
    (destroy_object env0 ⟨[objD 1, objBad 2, objD 3], true, false⟩
      (.many [some (objD 1), some (objBad 2), some (objD 3)]) 7).1.count
      Event.warn = 1 :=
  (C10_partial_destruction env0 ⟨[objD 1, objBad 2, objD 3], true, false⟩
    [objD 1] (objBad 2) [objD 3] 7 rfl
    (by
      intro o ho
      simp only [List.cons_append, List.nil_append, List.mem_cons,
        List.not_mem_nil, or_false] at ho
      rcases ho with rfl | rfl | rfl <;> rfl)
    (by
      intro a ha
      simp only [List.mem_singleton] at ha
      subst ha
      rfl)
    (by decide) (by decide)
    (by
      intro a ha
      simp only [List.mem_singleton] at ha
      subst ha
      simp)
    (by
      intro b hb
      simp only [List.mem_singleton] at hb
      subst hb
      simp)
    (Or.inl rfl)).2.2

end Meyendtris
